import Mathlib

/-
Verification of the crawl-and-download engine of atar-rocks-downloader.

Shallow embedding of the Rust sources:
  src/config.rs   : FilterRule, RuleType
  src/utils.rs    : should_filter, should_skip_url, get_file_size (with
                    the tokio_retry2 retry loop and the HEAD-probe action)
  src/network.rs  : extract_links, crawl_directory, download_file,
                    download_files_parallel
  src/crawl_data.rs : DownloadData

External libraries are modelled as follows:
  - the glob crate's Pattern::new / Pattern::matches are abstracted by a
    parameter compile : String -> Option (String -> Bool); an invalid
    pattern is one on which compile returns none;
  - the url crate's Url::join is modelled (urlJoin below) for the href
    forms the crawler actually meets: hrefs without scheme, authority,
    query, fragment or dot-segments, resolved against a base whose path
    starts with a slash;
  - HTTP and the filesystem are modelled as explicit data (HeadResp,
    NetResp, Fs below), and the concurrent task sets of crawl_directory
    and download_files_parallel are modelled sequentially, in spawn
    order; only set-level results are used by the claims.
-/

set_option autoImplicit false

/-! Filter engine: src/config.rs and src/utils.rs (should_filter). -/

/-- RuleType from src/config.rs. -/
inductive RuleType : Type where
  | Include : RuleType
  | Exclude : RuleType
deriving DecidableEq

/-- FilterRule from src/config.rs. -/
structure FilterRule : Type where
  rule_type : RuleType
  pattern : String
deriving DecidableEq

/-- Abstraction of glob::Pattern: compiling a pattern string yields a
matcher on paths, or none when the pattern is invalid
(Pattern::new returns Err). -/
abbrev Globber : Type := String → Option (String → Bool)

/-- The loop body of should_filter (src/utils.rs lines 178-192): the
boolean accumulator is the mutable is_included flag; none models the
Err value produced by the question-mark operator on Pattern::new. -/
def shouldFilterGo (compile : Globber) (path : String) :
    List FilterRule → Bool → Option Bool
  | [], is_included => some (!is_included)
  | rule :: rest, is_included =>
    match compile rule.pattern with
    | none => none
    | some pat =>
      if pat path then
        match rule.rule_type with
        | RuleType.Include => shouldFilterGo compile path rest true
        | RuleType.Exclude => some true
      else
        shouldFilterGo compile path rest is_included

/-- should_filter from src/utils.rs lines 168-199. -/
def should_filter (compile : Globber) (path : String)
    (filters : List FilterRule) : Option Bool :=
  if filters.isEmpty then some false
  else shouldFilterGo compile path filters false

/-- Whether a rule's pattern compiles and matches the path (the
condition pattern.matches(path) of the source loop). -/
def matchesRule (compile : Globber) (rule : FilterRule) (path : String) : Bool :=
  match compile rule.pattern with
  | none => false
  | some pat => pat path

/-- All patterns of the list are valid (compile on each succeeds). -/
def allValid (compile : Globber) (filters : List FilterRule) : Prop :=
  ∀ r ∈ filters, (compile r.pattern).isSome

/-- A concrete matcher used by witnesses: the pattern "[" is invalid,
"*" matches every path, any other pattern matches exactly itself. -/
def litCompile : Globber := fun pat =>
  if pat == "[" then none
  else if pat == "*" then some (fun _ => true)
  else some (fun s => s == pat)

/-! Helper lemmas about shouldFilterGo. -/

theorem shouldFilterGo_exclude_matches (compile : Globber) (path : String) :
    ∀ (filters : List FilterRule) (b : Bool),
      allValid compile filters →
      (∃ r ∈ filters, r.rule_type = RuleType.Exclude ∧
        matchesRule compile r path = true) →
      shouldFilterGo compile path filters b = some true := by
  intro filters
  induction filters with
  | nil =>
    intro b _ hex
    rcases hex with ⟨r, hr, _⟩
    exact absurd hr (List.not_mem_nil r)
  | cons rule rest ih =>
    intro b hvalid hex
    have hv : (compile rule.pattern).isSome :=
      hvalid rule (List.mem_cons_self rule rest)
    rcases Option.isSome_iff_exists.mp hv with ⟨pat, hpat⟩
    have hvrest : allValid compile rest := by
      intro r hr
      exact hvalid r (List.mem_cons_of_mem rule hr)
    simp only [shouldFilterGo, hpat]
    by_cases hm : pat path = true
    · simp only [hm, if_true]
      cases hrt : rule.rule_type with
      | Exclude => rfl
      | Include =>
        apply ih true hvrest
        rcases hex with ⟨r, hr, hrex, hrm⟩
        rcases List.mem_cons.mp hr with hhead | htail
        · rw [hhead] at hrex
          rw [hrex] at hrt
          exact absurd hrt (by simp)
        · exact ⟨r, htail, hrex, hrm⟩
    · simp only [hm, if_false]
      apply ih b hvrest
      rcases hex with ⟨r, hr, hrex, hrm⟩
      rcases List.mem_cons.mp hr with hhead | htail
      · rw [hhead] at hrm
        rw [matchesRule, hpat] at hrm
        exact absurd hrm hm
      · exact ⟨r, htail, hrex, hrm⟩

theorem shouldFilterGo_no_exclude (compile : Globber) (path : String) :
    ∀ (filters : List FilterRule) (b : Bool),
      allValid compile filters →
      (∀ r ∈ filters, r.rule_type = RuleType.Exclude →
        matchesRule compile r path = false) →
      shouldFilterGo compile path filters b =
        some (!(b || filters.any (fun r => matchesRule compile r path))) := by
  intro filters
  induction filters with
  | nil =>
    intro b _ _
    simp [shouldFilterGo]
  | cons rule rest ih =>
    intro b hvalid hnoex
    have hv : (compile rule.pattern).isSome :=
      hvalid rule (List.mem_cons_self rule rest)
    rcases Option.isSome_iff_exists.mp hv with ⟨pat, hpat⟩
    have hvrest : allValid compile rest := by
      intro r hr
      exact hvalid r (List.mem_cons_of_mem rule hr)
    have hnorest : ∀ r ∈ rest, r.rule_type = RuleType.Exclude →
        matchesRule compile r path = false := by
      intro r hr
      exact hnoex r (List.mem_cons_of_mem rule hr)
    have hmr : matchesRule compile rule path = pat path := by
      rw [matchesRule, hpat]
    simp only [shouldFilterGo, hpat]
    by_cases hm : pat path = true
    · simp only [hm, if_true]
      cases hrt : rule.rule_type with
      | Exclude =>
        have := hnoex rule (List.mem_cons_self rule rest) hrt
        rw [hmr] at this
        rw [this] at hm
        exact absurd hm (by simp)
      | Include =>
        rw [ih true hvrest hnorest]
        simp [List.any_cons, hmr, hm]
    · have hm' : pat path = false := by
        cases h : pat path with
        | true => exact absurd h hm
        | false => rfl
      simp only [hm', Bool.false_eq_true, if_false]
      rw [ih b hvrest hnorest]
      simp [List.any_cons, hmr, hm']

/-- C1: filter engine semantics. For every path p and ordered rule list R
whose glob patterns are all valid: should_filter p [] is false (empty
ruleset allows everything); if any Exclude rule matches p the result is
true regardless of the position or presence of matching Include rules; if
R is non-empty and no Include rule matches p the result is true
(default-deny); and when some Include matches and no Exclude matches the
result is false. -/
theorem C1_filter_engine_semantics (compile : Globber) (p : String)
    (R : List FilterRule) (hvalid : allValid compile R) :
    should_filter compile p [] = some false
    ∧ ((∃ r ∈ R, r.rule_type = RuleType.Exclude ∧
          matchesRule compile r p = true) →
        should_filter compile p R = some true)
    ∧ (R ≠ [] →
        (∀ r ∈ R, r.rule_type = RuleType.Include →
          matchesRule compile r p = false) →
        should_filter compile p R = some true)
    ∧ ((∃ r ∈ R, r.rule_type = RuleType.Include ∧
          matchesRule compile r p = true) →
        (∀ r ∈ R, r.rule_type = RuleType.Exclude →
          matchesRule compile r p = false) →
        should_filter compile p R = some false) := by
  refine ⟨rfl, ?_, ?_, ?_⟩
  · intro hex
    have hne : R ≠ [] := by
      rcases hex with ⟨r, hr, _⟩
      exact List.ne_nil_of_mem hr
    rw [should_filter, if_neg (by simpa using hne)]
    exact shouldFilterGo_exclude_matches compile p R false hvalid hex
  · intro hne hnoinc
    rw [should_filter, if_neg (by simpa using hne)]
    by_cases hex : ∃ r ∈ R, r.rule_type = RuleType.Exclude ∧
        matchesRule compile r p = true
    · exact shouldFilterGo_exclude_matches compile p R false hvalid hex
    · have hnoex : ∀ r ∈ R, r.rule_type = RuleType.Exclude →
          matchesRule compile r p = false := by
        intro r hr hrt
        cases h : matchesRule compile r p with
        | false => rfl
        | true => exact absurd ⟨r, hr, hrt, h⟩ hex
      rw [shouldFilterGo_no_exclude compile p R false hvalid hnoex]
      have hany : R.any (fun r => matchesRule compile r p) = false := by
        rw [List.any_eq_false]
        intro r hr
        cases hrt : r.rule_type with
        | Include => simp [hnoinc r hr hrt]
        | Exclude => simp [hnoex r hr hrt]
      simp [hany]
  · intro hinc hnoex
    have hne : R ≠ [] := by
      rcases hinc with ⟨r, hr, _⟩
      exact List.ne_nil_of_mem hr
    rw [should_filter, if_neg (by simpa using hne)]
    rw [shouldFilterGo_no_exclude compile p R false hvalid hnoex]
    have hany : R.any (fun r => matchesRule compile r p) = true := by
      rw [List.any_eq_true]
      rcases hinc with ⟨r, hr, _, hm⟩
      exact ⟨r, hr, hm⟩
    simp [hany]

/-- Witness for C1 at a concrete ruleset: Include "a.txt" then
Exclude "b.txt", path "a.txt". -/
theorem C1_filter_engine_semantics_witness :
    should_filter litCompile "a.txt" [] = some false
    ∧ ((∃ r ∈ [FilterRule.mk RuleType.Include "a.txt",
          FilterRule.mk RuleType.Exclude "b.txt"],
          r.rule_type = RuleType.Exclude ∧
          matchesRule litCompile r "a.txt" = true) →
        should_filter litCompile "a.txt"
          [FilterRule.mk RuleType.Include "a.txt",
           FilterRule.mk RuleType.Exclude "b.txt"] = some true)
    ∧ ([FilterRule.mk RuleType.Include "a.txt",
        FilterRule.mk RuleType.Exclude "b.txt"] ≠ ([] : List FilterRule) →
        (∀ r ∈ [FilterRule.mk RuleType.Include "a.txt",
          FilterRule.mk RuleType.Exclude "b.txt"],
          r.rule_type = RuleType.Include →
          matchesRule litCompile r "a.txt" = false) →
        should_filter litCompile "a.txt"
          [FilterRule.mk RuleType.Include "a.txt",
           FilterRule.mk RuleType.Exclude "b.txt"] = some true)
    ∧ ((∃ r ∈ [FilterRule.mk RuleType.Include "a.txt",
          FilterRule.mk RuleType.Exclude "b.txt"],
          r.rule_type = RuleType.Include ∧
          matchesRule litCompile r "a.txt" = true) →
        (∀ r ∈ [FilterRule.mk RuleType.Include "a.txt",
          FilterRule.mk RuleType.Exclude "b.txt"],
          r.rule_type = RuleType.Exclude →
          matchesRule litCompile r "a.txt" = false) →
        should_filter litCompile "a.txt"
          [FilterRule.mk RuleType.Include "a.txt",
           FilterRule.mk RuleType.Exclude "b.txt"] = some false) :=
  C1_filter_engine_semantics litCompile "a.txt"
    [FilterRule.mk RuleType.Include "a.txt",
     FilterRule.mk RuleType.Exclude "b.txt"]
    (by intro r hr; fin_cases hr <;> decide)

/-! Link extraction: src/utils.rs (should_skip_url) and
src/network.rs (extract_links). -/

/-- Model of str::starts_with on strings, written over the character
list so that closed instances reduce in the kernel. -/
def strStartsWith (s pat : String) : Bool :=
  pat.toList.isPrefixOf s.toList

/-- Model of str::ends_with on strings, written over the character
list so that closed instances reduce in the kernel. -/
def strEndsWith (s pat : String) : Bool :=
  pat.toList.isSuffixOf s.toList

/-- should_skip_url from src/utils.rs lines 106-113. -/
def should_skip_url (href : String) : Bool :=
  href == "../"
    || href == "#"
    || strStartsWith href "javascript:"
    || strStartsWith href "mailto:"
    || strStartsWith href "tel:"
    || strStartsWith href "?"

/-- Model of url::Url (the reqwest::Url used by the crawler): base is
the scheme plus authority (for example "https://atar.rocks"), path is
the path component, always starting with "/". -/
structure Url : Type where
  base : String
  path : String
deriving DecidableEq

/-- Rendering of a Url back to a string (Url::to_string / as_str). -/
def Url.toStr (u : Url) : String := u.base ++ u.path

/-- Everything up to and including the last slash of a path (the WHATWG
relative-resolution step that strips the last path segment). -/
def dropLastSegment (p : String) : String :=
  String.mk ((p.toList.reverse.dropWhile (fun c => c != '/')).reverse)

/-- Model of url::Url::join for the href forms the crawler meets:
an empty href resolves to the base itself, an absolute-path href
replaces the path, any other href replaces the last segment of the
base path. Hrefs carrying a scheme, authority, query, fragment or
dot-segments are outside the model. -/
def urlJoin (u : Url) (href : String) : Url :=
  if href == "" then u
  else if strStartsWith href "/" then { u with path := href }
  else { u with path := dropLastSegment u.path ++ href }

/-- DownloadData from src/crawl_data.rs: url is the absolute source
URL, output_dir the crawl-root-relative output path. -/
structure DownloadData : Type where
  url : String
  output_dir : String
deriving DecidableEq

/-- extract_links from src/network.rs lines 166-198. The HTML page is
abstracted to the document-order list of anchor hrefs (the scraper
crate's parse is external); each kept link is the triple
(href, resolved URL, is_dir). Note that the filter runs on
full_url.path() — the path of the resolved absolute URL — and that a
should_filter error is mapped to false by unwrap_or(false). -/
def extract_links (compile : Globber) (hrefs : List String) (url : Url)
    (filters : List FilterRule) : List (String × Url × Bool) :=
  match hrefs with
  | [] => []
  | href :: rest =>
    if should_skip_url href then extract_links compile rest url filters
    else
      let full_url := urlJoin url href
      let relative_path := full_url.path
      if (should_filter compile relative_path filters).getD false then
        extract_links compile rest url filters
      else
        (href, full_url, strEndsWith href "/") ::
          extract_links compile rest url filters

/-- extract_links keeps exactly the hrefs that are neither skipped nor
excluded by the filter run on the resolved URL's path, in document
order, pairing each with its resolved URL and the raw-href trailing
slash classification. Shared helper for several claims. -/
theorem extract_links_eq (compile : Globber) (url : Url)
    (filters : List FilterRule) :
    ∀ hrefs : List String,
      extract_links compile hrefs url filters =
        (hrefs.filter (fun h => !should_skip_url h &&
            !((should_filter compile (urlJoin url h).path filters).getD false))).map
          (fun h => (h, urlJoin url h, strEndsWith h "/")) := by
  intro hrefs
  induction hrefs with
  | nil => rfl
  | cons href rest ih =>
    by_cases hskip : should_skip_url href = true
    · simp [extract_links, hskip, List.filter_cons, ih]
    · have hskip' : should_skip_url href = false := by
        cases h : should_skip_url href with
        | true => exact absurd h hskip
        | false => rfl
      by_cases hf : (should_filter compile (urlJoin url href).path filters).getD false = true
      · simp [extract_links, hskip', hf, List.filter_cons, ih]
      · have hf' : (should_filter compile (urlJoin url href).path filters).getD false = false := by
          cases h : (should_filter compile (urlJoin url href).path filters).getD false with
          | true => exact absurd h hf
          | false => rfl
        simp [extract_links, hskip', hf', List.filter_cons, ih]

/-- Following the spec's words (section 4.4): the candidate relative
path of a link is the join of the current relativePathPrefix and the
raw href. Stated only so the spec's claim can be compared with the
code's behaviour. -/
def specCandidateRelPath (rel href : String) : String :=
  if rel == "" then href else rel ++ "/" ++ href

/-- C3 counterexample: with the single rule Include "a.txt" (literal
matcher), prefix "" and raw href "a.txt", the spec's candidate relative
path "a.txt" is not excluded, yet the code drops the link, because
should_filter actually runs on the resolved URL path "/files/a.txt",
which no Include rule matches. -/
theorem C3_counterexample :
    should_filter litCompile (specCandidateRelPath "" "a.txt")
        [FilterRule.mk RuleType.Include "a.txt"] = some false
    ∧ extract_links litCompile ["a.txt"]
        (Url.mk "https://atar.rocks" "/files/")
        [FilterRule.mk RuleType.Include "a.txt"] = [] := by
  constructor
  · rfl
  · rfl

/-- C3 (corrected): for every link on a listing page, the crawler
applies the filter engine to the path component of the resolved
absolute URL (base joined with the raw href), not to the join of the
relativePathPrefix with the raw href, and it skips the link exactly
when that evaluation yields excluded (a filter error counting as not
excluded). -/
theorem C3_filter_on_resolved_url_path (compile : Globber) (url : Url)
    (filters : List FilterRule) (hrefs : List String) :
    extract_links compile hrefs url filters =
      (hrefs.filter (fun h => !should_skip_url h &&
          !((should_filter compile (urlJoin url h).path filters).getD false))).map
        (fun h => (h, urlJoin url h, strEndsWith h "/")) :=
  extract_links_eq compile url filters hrefs

/-- C9 counterexample: nothing validates glob patterns at load time
(Config::from_file only parses TOML); should_filter recompiles every
pattern on every call, so an invalid pattern surfaces as a per-path
error, and its presence changes extract_links' answer: with the invalid
pattern "[" in front of Exclude "*" the link is kept, while with
Exclude "*" alone it is dropped. -/
theorem C9_counterexample :
    should_filter litCompile "/files/a.txt"
        [FilterRule.mk RuleType.Include "["] = none
    ∧ extract_links litCompile ["a.txt"]
        (Url.mk "https://atar.rocks" "/files/")
        [FilterRule.mk RuleType.Include "[",
         FilterRule.mk RuleType.Exclude "*"] =
      [("a.txt", Url.mk "https://atar.rocks" "/files/a.txt", false)]
    ∧ extract_links litCompile ["a.txt"]
        (Url.mk "https://atar.rocks" "/files/")
        [FilterRule.mk RuleType.Exclude "*"] = [] := by
  refine ⟨rfl, rfl, rfl⟩

/-- C9 (corrected): glob patterns are not validated at configuration
load; should_filter recompiles each pattern on every call and returns
an error as soon as it reaches an invalid pattern (here: an invalid
pattern at the head of a non-empty rule list), and extract_links maps
that error to "not excluded" via unwrap_or(false), keeping the link —
so an invalid pattern is a per-path condition that silently disables
filtering for every path whose rule scan reaches it. -/
theorem C9_invalid_pattern_per_path (compile : Globber) (p : String)
    (r : FilterRule) (rest : List FilterRule) (url : Url) (href : String)
    (hbad : compile r.pattern = none)
    (hskip : should_skip_url href = false)
    (herr : should_filter compile (urlJoin url href).path (r :: rest) = none) :
    should_filter compile p (r :: rest) = none
    ∧ extract_links compile [href] url (r :: rest) =
        [(href, urlJoin url href, strEndsWith href "/")] := by
  constructor
  · rw [should_filter]
    simp only [List.isEmpty_cons, if_false, Bool.false_eq_true]
    rw [shouldFilterGo, hbad]
  · rw [extract_links_eq]
    simp [hskip, herr]

/-- Witness for C9's corrected statement at the concrete invalid
pattern "[". -/
theorem C9_invalid_pattern_per_path_witness :
    should_filter litCompile "/files/a.txt"
        [FilterRule.mk RuleType.Include "[",
         FilterRule.mk RuleType.Exclude "*"] = none
    ∧ extract_links litCompile ["a.txt"]
        (Url.mk "https://atar.rocks" "/files/")
        [FilterRule.mk RuleType.Include "[",
         FilterRule.mk RuleType.Exclude "*"] =
      [("a.txt",
        urlJoin (Url.mk "https://atar.rocks" "/files/") "a.txt",
        strEndsWith "a.txt" "/")] :=
  C9_invalid_pattern_per_path litCompile "/files/a.txt"
    (FilterRule.mk RuleType.Include "[")
    [FilterRule.mk RuleType.Exclude "*"]
    (Url.mk "https://atar.rocks" "/files/") "a.txt"
    rfl rfl rfl

/-! Directory crawler: src/network.rs (crawl_directory, lines 57-163). -/

/-
The remote site as seen by the crawler. RTree.node fails links is a
listing page: fails is true when every retry of the page GET fails
(retry exhaustion of the strategy at lines 73-83 is abstracted to this
flag), and links are the page's anchors in document order. Each link
carries the raw href, the subtree behind it (consulted only when the
crawler classifies the href as a directory) and the size the HEAD probe
of get_file_size ultimately yields for it (consulted only when the href
is classified as a file; probe failures already degraded to 0 by
unwrap_or_else).
-/
mutual
inductive RTree : Type where
  | node : Bool → RLinks → RTree

inductive RLinks : Type where
  | lnil : RLinks
  | lcons : String → RTree → Nat → RLinks → RLinks
end

mutual
/-- crawl_directory from src/network.rs lines 57-163, sequentialised:
the spawned child tasks are evaluated in spawn order, and the shared
total_size atomic is threaded as the accumulator total. A node whose
page fetch exhausts its retries produces the error the source
propagates with the question-mark at line 83; a child task's error
propagates through result?? at line 152. The result mirrors the
source's merge order: own files pushed during the loop come before all
child files, and directories pushed during the loop come before all
child directories. -/
def crawl_directory (compile : Globber) (filters : List FilterRule) :
    RTree → Url → String → String → Nat →
    Except Unit (List DownloadData × List String × Nat)
  | RTree.node true _, _, _, _, _ => Except.error ()
  | RTree.node false links, url, output_dir, rel, total =>
    match crawlLinks compile filters links url output_dir rel total with
    | Except.error e => Except.error e
    | Except.ok (ownF, ownD, childF, childD, t) =>
      Except.ok (ownF ++ childF, ownD ++ childD, t)

/-- The link loop of crawl_directory (lines 91-145), inlining the
per-link skip, filter and classification steps of extract_links. For a
directory link the source computes new_root_relative_path (href alone
when the prefix is empty), new_output_dir = output_dir/href, pushes
new_output_dir/href — note the duplicated href of line 113 — and
recurses; for a file link it adds the probed size to the shared total
and pushes DownloadData with output_dir = root_relative_path/href.
Returns (own files, own dirs, child files, child dirs, total). -/
def crawlLinks (compile : Globber) (filters : List FilterRule) :
    RLinks → Url → String → String → Nat →
    Except Unit (List DownloadData × List String × List DownloadData ×
      List String × Nat)
  | RLinks.lnil, _, _, _, total => Except.ok ([], [], [], [], total)
  | RLinks.lcons href sub size rest, url, output_dir, rel, total =>
    if should_skip_url href then
      crawlLinks compile filters rest url output_dir rel total
    else
      let full_url := urlJoin url href
      if (should_filter compile full_url.path filters).getD false then
        crawlLinks compile filters rest url output_dir rel total
      else if strEndsWith href "/" then
        let new_rel := if rel == "" then href else rel ++ "/" ++ href
        let new_out := output_dir ++ "/" ++ href
        match crawl_directory compile filters sub full_url new_out new_rel total with
        | Except.error e => Except.error e
        | Except.ok (cf, cd, t1) =>
          match crawlLinks compile filters rest url output_dir rel t1 with
          | Except.error e => Except.error e
          | Except.ok (ownF, ownD, childF, childD, t2) =>
            Except.ok (ownF, (new_out ++ "/" ++ href) :: ownD,
              cf ++ childF, cd ++ childD, t2)
      else
        match crawlLinks compile filters rest url output_dir rel (total + size) with
        | Except.error e => Except.error e
        | Except.ok (ownF, ownD, childF, childD, t2) =>
          Except.ok (DownloadData.mk full_url.toStr (rel ++ "/" ++ href) :: ownF,
            ownD, childF, childD, t2)
end

/-- Splitting a slash-separated path into its segments (an empty
segment between two adjacent slashes is kept). -/
def splitSlash : List Char → List (List Char)
  | [] => [[]]
  | c :: rest =>
    let r := splitSlash rest
    if c = '/' then [] :: r
    else
      match r with
      | [] => [[c]]
      | s :: ss => (c :: s) :: ss

/-- Joining segments back with slashes. -/
def joinSlash : List (List Char) → List Char
  | [] => []
  | [s] => s
  | s :: rest => s ++ '/' :: joinSlash rest

/-- The proper directory prefixes of a slash-separated relative path:
for every strict, non-empty initial run of segments, the segments
rejoined with slashes. For "sub/a.txt" this is ["sub"]. -/
def properDirPrefixes (p : String) : List String :=
  let segs := splitSlash p.toList
  ((List.range segs.length).drop 1).map
    (fun k => String.mk (joinSlash (segs.take k)))

/-- C2: the directory-prefix invariant fails on the code. On a root
listing with one directory link "sub/" holding one file "a.txt"
(no filters), the crawl returns the entry with relative output path
"sub//a.txt", whose proper directory prefix "sub" is nowhere in
directories_to_create: line 113 of src/network.rs pushes
output_dir/href/href — the href duplicated and the trailing slash
kept — instead of the directory's own path. -/
theorem C2_dir_prefix_invariant_fails :
    crawl_directory litCompile []
      (RTree.node false
        (RLinks.lcons "sub/"
          (RTree.node false (RLinks.lcons "a.txt" (RTree.node false RLinks.lnil) 5 RLinks.lnil))
          0 RLinks.lnil))
      (Url.mk "https://atar.rocks" "/files/") "output" "" 0 =
    Except.ok
      ([DownloadData.mk "https://atar.rocks/files/sub/a.txt" "sub//a.txt"],
       ["output/sub//sub/"], 5)
    ∧ "sub" ∈ properDirPrefixes "sub//a.txt"
    ∧ "sub" ∉ ["output/sub//sub/"] := by
  refine ⟨rfl, ?_, ?_⟩
  · decide
  · decide

/-- Whether an Except value is the error case. -/
def isErr {α : Type} : Except Unit α → Bool
  | Except.error _ => true
  | Except.ok _ => false

mutual
/-- A page of the site whose crawl must fail: its own fetch exhausts
retries, or some recursively visited subdirectory's does. -/
def treeFails (compile : Globber) (filters : List FilterRule) :
    RTree → Url → Bool
  | RTree.node true _, _ => true
  | RTree.node false links, url => linksFail compile filters links url

/-- Some directory link of the list that the crawler follows (not
skipped, not excluded, href ends with a slash) leads to a failing
subtree. -/
def linksFail (compile : Globber) (filters : List FilterRule) :
    RLinks → Url → Bool
  | RLinks.lnil, _ => false
  | RLinks.lcons href sub _ rest, url =>
    (!should_skip_url href
      && !((should_filter compile (urlJoin url href).path filters).getD false)
      && strEndsWith href "/"
      && treeFails compile filters sub (urlJoin url href))
    || linksFail compile filters rest url
end

mutual
/-- The crawl of a node errors exactly when its page fetch fails or a
recursively visited subdirectory's crawl fails: the result?? at
src/network.rs line 152 propagates every child task's error. -/
theorem crawl_directory_isErr (compile : Globber) (filters : List FilterRule)
    (t : RTree) (url : Url) (out rel : String) (total : Nat) :
    isErr (crawl_directory compile filters t url out rel total) =
      treeFails compile filters t url := by
  cases t with
  | node fails links =>
    cases fails with
    | true => rfl
    | false =>
      have h := crawlLinks_isErr compile filters links url out rel total
      simp only [crawl_directory, treeFails]
      cases hc : crawlLinks compile filters links url out rel total with
      | error e =>
        rw [hc] at h
        exact h
      | ok val =>
        obtain ⟨ownF, ownD, childF, childD, t2⟩ := val
        rw [hc] at h
        exact h

/-- Companion of crawl_directory_isErr for the link loop. -/
theorem crawlLinks_isErr (compile : Globber) (filters : List FilterRule)
    (links : RLinks) (url : Url) (out rel : String) (total : Nat) :
    isErr (crawlLinks compile filters links url out rel total) =
      linksFail compile filters links url := by
  cases links with
  | lnil => rfl
  | lcons href sub size rest =>
    simp only [crawlLinks, linksFail]
    by_cases hskip : should_skip_url href = true
    · simp only [hskip, if_true, Bool.not_true, Bool.false_and, Bool.false_or]
      exact crawlLinks_isErr compile filters rest url out rel total
    · have hskip' : should_skip_url href = false := by
        cases h : should_skip_url href with
        | true => exact absurd h hskip
        | false => rfl
      simp only [hskip', Bool.false_eq_true, if_false, Bool.not_false, Bool.true_and]
      by_cases hf : (should_filter compile (urlJoin url href).path filters).getD false = true
      · simp only [hf, if_true, Bool.not_true, Bool.false_and, Bool.false_or]
        exact crawlLinks_isErr compile filters rest url out rel total
      · have hf' : (should_filter compile (urlJoin url href).path filters).getD false = false := by
          cases h : (should_filter compile (urlJoin url href).path filters).getD false with
          | true => exact absurd h hf
          | false => rfl
        simp only [hf', Bool.false_eq_true, if_false, Bool.not_false, Bool.true_and]
        by_cases hdir : strEndsWith href "/" = true
        · simp only [hdir, if_true, Bool.true_and]
          have hsub := crawl_directory_isErr compile filters sub (urlJoin url href)
            (out ++ "/" ++ href) (if rel == "" then href else rel ++ "/" ++ href) total
          cases hc : crawl_directory compile filters sub (urlJoin url href)
              (out ++ "/" ++ href) (if rel == "" then href else rel ++ "/" ++ href) total with
          | error e =>
            rw [hc] at hsub
            simp only [hc, ← hsub, isErr, Bool.true_or]
          | ok val =>
            obtain ⟨cf, cd, t1⟩ := val
            rw [hc] at hsub
            have hrest := crawlLinks_isErr compile filters rest url out rel t1
            simp only [hc, ← hsub, isErr, Bool.false_or]
            cases hr : crawlLinks compile filters rest url out rel t1 with
            | error e =>
              rw [hr] at hrest
              simpa [isErr] using hrest
            | ok val2 =>
              obtain ⟨a, b, c, d, t2⟩ := val2
              rw [hr] at hrest
              simpa [isErr] using hrest
        · have hdir' : strEndsWith href "/" = false := by
            cases h : strEndsWith href "/" with
            | true => exact absurd h hdir
            | false => rfl
          simp only [hdir', Bool.false_eq_true, if_false, Bool.false_and, Bool.false_or]
          have hrest := crawlLinks_isErr compile filters rest url out rel (total + size)
          cases hr : crawlLinks compile filters rest url out rel (total + size) with
          | error e =>
            rw [hr] at hrest
            simpa [isErr] using hrest
          | ok val2 =>
            obtain ⟨a, b, c, d, t2⟩ := val2
            rw [hr] at hrest
            simpa [isErr] using hrest
end

/-- C8 counterexample: the root page fetch succeeds, only the
subdirectory "sub/" exhausts its retries, yet the root-level crawl call
returns an error — the failed subtree is not contained. -/
theorem C8_counterexample :
    crawl_directory litCompile []
      (RTree.node false
        (RLinks.lcons "sub/" (RTree.node true RLinks.lnil) 0 RLinks.lnil))
      (Url.mk "https://atar.rocks" "/files/") "output" "" 0 =
      Except.error ()
    ∧ treeFails litCompile [] (RTree.node true RLinks.lnil)
        (urlJoin (Url.mk "https://atar.rocks" "/files/") "sub/") = true := by
  exact ⟨rfl, rfl⟩

/-- C8 (corrected): the crawl of the root returns an error exactly when
the root page's fetch terminally fails or the fetch of some recursively
visited subdirectory (one reached through links that are not skipped,
not excluded, and classified as directories) terminally fails: a
terminal fetch error inside a non-root subdirectory is not contained
but propagates to the root-level call through result?? at
src/network.rs line 152. -/
theorem C8_subtree_failure_propagates (compile : Globber)
    (filters : List FilterRule) (t : RTree) (url : Url)
    (out rel : String) (total : Nat) :
    isErr (crawl_directory compile filters t url out rel total) =
      treeFails compile filters t url :=
  crawl_directory_isErr compile filters t url out rel total

/-- C10: an anchor whose raw href is the empty string is not skipped,
resolves by URL join to the listing page's own URL, is classified as a
file because "" does not end with a slash, and so a listing page
holding an empty-href anchor yields a download entry whose source URL
is the listing page itself. -/
theorem C10_empty_href_downloads_listing_page :
    should_skip_url "" = false
    ∧ (∀ u : Url, urlJoin u "" = u)
    ∧ strEndsWith "" "/" = false
    ∧ crawl_directory litCompile []
        (RTree.node false
          (RLinks.lcons "" (RTree.node false RLinks.lnil) 0 RLinks.lnil))
        (Url.mk "https://atar.rocks" "/files/") "output" "" 0 =
      Except.ok
        ([DownloadData.mk
            (Url.toStr (Url.mk "https://atar.rocks" "/files/")) "/"],
         [], 0) := by
  refine ⟨rfl, fun u => rfl, rfl, rfl⟩

/-! Retrying HEAD size probe: src/utils.rs (action, get_file_size). -/

/-- tokio_retry2::RetryError, restricted to the two classifications the
sources construct. -/
inductive RetryErr (E : Type) : Type where
  | transient : E → RetryErr E
  | permanent : E → RetryErr E

/-- A HEAD response: success is status().is_success(); content_length
is the Content-Length header when present, whose inner value is the
result of HeaderValue::to_str (none when the bytes are not visible
ASCII and to_str errors). -/
structure HeadResp : Type where
  success : Bool
  content_length : Option (Option String)

/-- The network as the HEAD probe sees it, indexed by attempt number:
none is a network-layer send error. -/
abbrev HeadNet : Type := Nat → Option HeadResp

/-- Digit-by-digit accumulation for parseU64. -/
def digitsToNat : List Char → Nat → Option Nat
  | [], acc => some acc
  | c :: rest, acc =>
    if '0' ≤ c ∧ c ≤ '9' then
      digitsToNat rest (acc * 10 + (c.toNat - '0'.toNat))
    else none

/-- Model of str::parse::<u64>: a non-empty all-digit string parses to
its value, anything else errors (a leading plus sign and the u64
overflow bound are not modelled). -/
def parseU64 (s : String) : Option Nat :=
  match s.toList with
  | [] => none
  | cs => digitsToNat cs 0

/-- action from src/utils.rs lines 115-126: a send error is transient;
on a success status with a parsable Content-Length the size is
returned; a to_str failure is transient via the question-mark; every
other case — non-2xx status, missing header, unparsable number — warns
and returns Ok(0). -/
def action (net : HeadNet) (attempt : Nat) : Except (RetryErr Unit) Nat :=
  match net attempt with
  | none => Except.error (RetryErr.transient ())
  | some resp =>
    if resp.success then
      match resp.content_length with
      | none => Except.ok 0
      | some none => Except.error (RetryErr.transient ())
      | some (some s) =>
        match parseU64 s with
        | some n => Except.ok n
        | none => Except.ok 0
    else Except.ok 0

/-- tokio_retry2::Retry::spawn_notify over a delay iterator of fuel
elements (the .take(n) of the strategy): the operation runs, a
transient error consumes one delay and retries, and when the iterator
is exhausted the last error is returned. The second component counts
the attempts made, the first attempt being number attempt+1. -/
def retrySpawn {E A : Type} (act : Nat → Except (RetryErr E) A) :
    Nat → Nat → Except E A × Nat
  | fuel, attempt =>
    match act attempt with
    | Except.ok a => (Except.ok a, attempt + 1)
    | Except.error (RetryErr.permanent e) => (Except.error e, attempt + 1)
    | Except.error (RetryErr.transient e) =>
      match fuel with
      | 0 => (Except.error e, attempt + 1)
      | fuel' + 1 => retrySpawn act fuel' (attempt + 1)

/-- get_file_size from src/utils.rs lines 134-143: the retry strategy
takes 150 delays, so up to 151 attempts of action. The exponential
backoff, jitter and delay caps only shape waiting times and are not
modelled. Returns the result together with the number of attempts
made. -/
def get_file_size (net : HeadNet) : Except Unit Nat × Nat :=
  retrySpawn (action net) 150 0

/-- If every attempt hits a network-layer error, the retry loop runs
the action once per available delay plus one and then fails
terminally. -/
theorem retrySpawn_all_transient (net : HeadNet)
    (h : ∀ i, net i = none) :
    ∀ (fuel attempt : Nat),
      retrySpawn (action net) fuel attempt =
        (Except.error (), attempt + fuel + 1) := by
  intro fuel
  induction fuel with
  | zero =>
    intro attempt
    rw [retrySpawn, action, h attempt]
  | succ fuel' ih =>
    intro attempt
    have step : retrySpawn (action net) (fuel' + 1) attempt =
        retrySpawn (action net) fuel' (attempt + 1) := by
      conv_lhs => rw [retrySpawn]
      rw [action, h attempt]
    rw [step, ih (attempt + 1)]
    congr 1
    omega

/-- C6 counterexample: a HEAD probe whose every response is non-2xx is
not retried at all — after a single attempt get_file_size returns
success with size 0, instead of retrying and eventually failing
terminally as the claim states. -/
theorem C6_counterexample :
    get_file_size (fun _ => some (HeadResp.mk false none)) =
      (Except.ok 0, 1)
    ∧ (1 : Nat) ≠ 151 := by
  exact ⟨rfl, by decide⟩

/-- C6 (corrected): for the HEAD size probe, only network-layer errors
(and Content-Length values whose bytes defeat to_str) are transient and
retried, failing terminally once the 150-delay budget is exhausted; a
non-2xx response is not retried: the probe immediately returns Ok with
size 0 on the first attempt that yields it. A network error followed by
a success response is retried and succeeds. -/
theorem C6_head_probe_retry_classification (net : HeadNet) :
    ((∀ i, net i = none) →
      get_file_size net = (Except.error (), 151))
    ∧ (∀ r : HeadResp, net 0 = some r → r.success = false →
        get_file_size net = (Except.ok 0, 1))
    ∧ (net 0 = none →
        net 1 = some (HeadResp.mk true (some (some "5"))) →
        get_file_size net = (Except.ok 5, 2)) := by
  refine ⟨?_, ?_, ?_⟩
  · intro h
    rw [get_file_size, retrySpawn_all_transient net h 150 0]
  · intro r h0 hs
    rw [get_file_size, retrySpawn, action, h0]
    simp [hs]
  · intro h0 h1
    rw [get_file_size, retrySpawn, action, h0]
    show retrySpawn (action net) 149 1 = (Except.ok 5, 2)
    rw [retrySpawn, action, h1]
    rfl

/-- Witness for C6's corrected statement: part one at an always-failing
network, parts two and three at concrete responses. -/
theorem C6_head_probe_retry_classification_witness :
    get_file_size (fun _ => none) = (Except.error (), 151)
    ∧ get_file_size (fun _ => some (HeadResp.mk false none)) =
        (Except.ok 0, 1)
    ∧ get_file_size
        (fun i => if i == 0 then none
          else some (HeadResp.mk true (some (some "5")))) =
        (Except.ok 5, 2) :=
  ⟨(C6_head_probe_retry_classification (fun _ => none)).1 (fun _ => rfl),
   (C6_head_probe_retry_classification
      (fun _ => some (HeadResp.mk false none))).2.1
     (HeadResp.mk false none) rfl rfl,
   (C6_head_probe_retry_classification
      (fun i => if i == 0 then none
        else some (HeadResp.mk true (some (some "5"))))).2.2 rfl rfl⟩

/-! Download scheduler: src/network.rs (download_file lines 285-329,
download_files_parallel lines 201-280). -/

/-- File metadata as tokio::fs::metadata reports it: whether the path
is a regular file, and its length. -/
structure Meta : Type where
  is_file : Bool
  len : Nat
deriving DecidableEq

/-- The local filesystem as a path-to-metadata association list.
Directories and their creation are outside this model (File::create's
missing-parent failure mode is not represented). -/
abbrev Fs : Type := List (String × Meta)

/-- Lookup of a path's metadata (tokio::fs::metadata). -/
def fsGet : Fs → String → Option Meta
  | [], _ => none
  | (p, m) :: rest, q => if p == q then some m else fsGet rest q

/-- Creation or truncation of a file at a path (File::create plus the
subsequent writes, collapsed to the final metadata). -/
def fsSet : Fs → String → Meta → Fs
  | [], q, m => [(q, m)]
  | (p, m0) :: rest, q, m =>
    if p == q then (q, m) :: rest else (p, m0) :: fsSet rest q m

/-- A GET response for a file body: status_ok is
status().is_success(); content_length only drives the progress bar and
is carried for fidelity; chunks are the byte counts of the stream
chunks actually delivered; mid_error means the stream yields an error
after those chunks. none at the Net level is a send error. -/
structure NetResp : Type where
  status_ok : Bool
  content_length : Option Nat
  chunks : List Nat
  mid_error : Bool
deriving DecidableEq

/-- The network as the downloader sees it, by URL. -/
abbrev Net : Type := String → Option NetResp

/-- The body of download_file past the exists-check (src/network.rs
lines 301-328): one direct GET — no retry wrapper — then a status
check before File::create, then the chunk-writing loop; a mid-stream
chunk error propagates after the delivered chunks were written.
Returns (result, filesystem after, requests made). -/
def downloadFresh (net : Net) (fs : Fs) (dload_file : DownloadData)
    (target : String) : Except Unit Nat × Fs × Nat :=
  match net dload_file.url with
  | none => (Except.error (), fs, 1)
  | some resp =>
    if resp.status_ok then
      let downloaded_size := resp.chunks.foldl (fun a b => a + b) 0
      let fs1 := fsSet fs target (Meta.mk true downloaded_size)
      if resp.mid_error then (Except.error (), fs1, 1)
      else (Except.ok downloaded_size, fs1, 1)
    else (Except.error (), fs, 1)

/-- download_file from src/network.rs lines 285-329: when the target
path output_path/output_dir exists and is a regular file the download
is treated as complete, its on-disk size is reported and no request is
made; otherwise the body is fetched. -/
def download_file (net : Net) (fs : Fs) (dload_file : DownloadData)
    (output_path : String) : Except Unit Nat × Fs × Nat :=
  let target := output_path ++ "/" ++ dload_file.output_dir
  match fsGet fs target with
  | some m =>
    if m.is_file then (Except.ok m.len, fs, 0)
    else downloadFresh net fs dload_file target
  | none => downloadFresh net fs dload_file target

/-- The outcome of a scheduler run: final filesystem, the shared
total_size_downloaded counter, the number of network requests made,
and the per-file outcomes (ok_files with the size each task reported,
failed_files merely logged). -/
structure SchedulerResult : Type where
  fs : Fs
  total_size_downloaded : Nat
  requests : Nat
  ok_files : List (String × Nat)
  failed_files : List String
deriving DecidableEq

/-- download_files_parallel from src/network.rs lines 201-280,
sequentialised in spawn order (the semaphore bound only limits
concurrency and is not modelled). Each entry's output_dir is
percent-decoded first — decode none models
percent_decode_str(..).decode_utf8() failing, whose question-mark
aborts the whole function; a per-file download error is only recorded
(the task logs it), and only an Ok size is added to the shared
counter. -/
def download_files_parallel (decode : String → Option String) (net : Net) :
    List DownloadData → String → Fs → Except Unit SchedulerResult
  | [], _, fs => Except.ok (SchedulerResult.mk fs 0 0 [] [])
  | f :: rest, output_dir, fs =>
    match decode f.output_dir with
    | none => Except.error ()
    | some d =>
      match download_file net fs (DownloadData.mk f.url d) output_dir with
      | (res, fs1, req) =>
        match download_files_parallel decode net rest output_dir fs1 with
        | Except.error e => Except.error e
        | Except.ok r =>
          match res with
          | Except.ok size =>
            Except.ok (SchedulerResult.mk r.fs (size + r.total_size_downloaded)
              (req + r.requests) ((d, size) :: r.ok_files) r.failed_files)
          | Except.error _ =>
            Except.ok (SchedulerResult.mk r.fs r.total_size_downloaded
              (req + r.requests) r.ok_files (d :: r.failed_files))

/-- Skip-if-exists: when the target is a regular file, download_file
reports its on-disk size, touches nothing and makes no request.
Shared helper. -/
theorem download_file_skips_existing (net : Net) (fs : Fs)
    (f : DownloadData) (out : String) (m : Meta)
    (h1 : fsGet fs (out ++ "/" ++ f.output_dir) = some m)
    (h2 : m.is_file = true) :
    download_file net fs f out = (Except.ok m.len, fs, 0) := by
  rw [download_file]
  simp only [h1, h2, if_true]

/-- Writing one path never removes another path's entry. -/
theorem fsGet_fsSet_presence (q : String) (m2 : Meta) :
    ∀ (fs : Fs) (p : String) (m : Meta),
      fsGet fs p = some m →
      ∃ m', fsGet (fsSet fs q m2) p = some m' := by
  intro fs
  induction fs with
  | nil =>
    intro p m h
    simp [fsGet] at h
  | cons pm rest ih =>
    intro p m h
    obtain ⟨p0, m0⟩ := pm
    by_cases hq : (p0 == q) = true
    · simp only [fsSet, hq, if_true]
      by_cases hp : (q == p) = true
      · exact ⟨m2, by simp [fsGet, hp]⟩
      · have hp0 : (p0 == p) = false := by
          have : p0 = q := by simpa using hq
          subst this
          cases hpp : (p0 == p) with
          | true => exact absurd hpp hp
          | false => rfl
        have hqp : (q == p) = false := by
          cases hpp : (q == p) with
          | true => exact absurd hpp hp
          | false => rfl
        rw [fsGet, hp0] at h
        simp only [Bool.false_eq_true, if_false] at h
        exact ⟨m, by simp only [fsGet, hqp, Bool.false_eq_true, if_false]; exact h⟩
    · have hq' : (p0 == q) = false := by
        cases hqq : (p0 == q) with
        | true => exact absurd hqq hq
        | false => rfl
      simp only [fsSet, hq', Bool.false_eq_true, if_false]
      by_cases hp : (p0 == p) = true
      · exact ⟨m0, by simp [fsGet, hp]⟩
      · have hp' : (p0 == p) = false := by
          cases hpp : (p0 == p) with
          | true => exact absurd hpp hp
          | false => rfl
        rw [fsGet, hp'] at h
        simp only [Bool.false_eq_true, if_false] at h
        obtain ⟨m', hm'⟩ := ih p m h
        exact ⟨m', by simp [fsGet, hp', hm']⟩

/-- downloadFresh never removes an existing filesystem entry. -/
theorem downloadFresh_preserves (net : Net) (fs : Fs) (f : DownloadData)
    (target p : String) (m : Meta) (h : fsGet fs p = some m) :
    ∃ m', fsGet (downloadFresh net fs f target).2.1 p = some m' := by
  rw [downloadFresh]
  cases hn : net f.url with
  | none => exact ⟨m, h⟩
  | some resp =>
    by_cases hs : resp.status_ok = true
    · simp only [hs, if_true]
      by_cases hm : resp.mid_error = true
      · simp only [hm, if_true]
        exact fsGet_fsSet_presence target
          (Meta.mk true (resp.chunks.foldl (fun a b => a + b) 0)) fs p m h
      · have hm' : resp.mid_error = false := by
          cases hmm : resp.mid_error with
          | true => exact absurd hmm hm
          | false => rfl
        simp only [hm', Bool.false_eq_true, if_false]
        exact fsGet_fsSet_presence target
          (Meta.mk true (resp.chunks.foldl (fun a b => a + b) 0)) fs p m h
    · have hs' : resp.status_ok = false := by
        cases hss : resp.status_ok with
        | true => exact absurd hss hs
        | false => rfl
      simp only [hs', Bool.false_eq_true, if_false]
      exact ⟨m, h⟩

/-- download_file never removes an existing filesystem entry, in
particular it never deletes a partial file. -/
theorem download_file_preserves (net : Net) (fs : Fs) (f : DownloadData)
    (out p : String) (m : Meta) (h : fsGet fs p = some m) :
    ∃ m', fsGet (download_file net fs f out).2.1 p = some m' := by
  rw [download_file]
  cases hg : fsGet fs (out ++ "/" ++ f.output_dir) with
  | some m0 =>
    by_cases hf : m0.is_file = true
    · simp only [hf, if_true]
      exact ⟨m, h⟩
    · have hf' : m0.is_file = false := by
        cases hff : m0.is_file with
        | true => exact absurd hff hf
        | false => rfl
      simp only [hf', Bool.false_eq_true, if_false]
      exact downloadFresh_preserves net fs f (out ++ "/" ++ f.output_dir) p m h
  | none =>
    exact downloadFresh_preserves net fs f (out ++ "/" ++ f.output_dir) p m h

/-- C4 counterexample: with a single entry whose GET hits a network
error, the first scheduler run (against an empty output directory)
makes one request, fails the entry, and leaves the filesystem empty —
so the second run, which receives exactly that filesystem, is the very
same computation and again performs one network request, not zero. -/
theorem C4_counterexample :
    download_files_parallel (fun s => some s) (fun _ => none)
        [DownloadData.mk "u" "a"] "out" [] =
      Except.ok (SchedulerResult.mk [] 0 1 [] ["a"])
    ∧ (SchedulerResult.mk ([] : Fs) 0 1 [] ["a"]).requests ≠ 0 := by
  exact ⟨rfl, by decide⟩

/-- C4 (corrected): for every DownloadEntry whose target path
outputRoot/relativePath exists as a regular file, download_file makes
no network request, changes nothing, and returns the on-disk size; and
a scheduler run in which every entry's decoded target already exists
as a regular file (for example after a fully successful earlier run)
performs zero network requests and fails no file. The original claim's
unconditional second-run statement is false: entries that failed
terminally on the first run are absent on disk and are fetched again.
-/
theorem C4_resume_skip_existing :
    (∀ (net : Net) (fs : Fs) (f : DownloadData) (out : String) (m : Meta),
        fsGet fs (out ++ "/" ++ f.output_dir) = some m → m.is_file = true →
        download_file net fs f out = (Except.ok m.len, fs, 0))
    ∧ (∀ (decode : String → Option String) (net : Net)
        (files : List DownloadData) (out : String) (fs : Fs),
        (∀ f ∈ files, ∃ d m, decode f.output_dir = some d ∧
          fsGet fs (out ++ "/" ++ d) = some m ∧ m.is_file = true) →
        ∃ r, download_files_parallel decode net files out fs = Except.ok r
          ∧ r.requests = 0 ∧ r.failed_files = [] ∧ r.fs = fs) := by
  constructor
  · exact download_file_skips_existing
  · intro decode net files
    induction files with
    | nil =>
      intro out fs _
      exact ⟨SchedulerResult.mk fs 0 0 [] [], rfl, rfl, rfl, rfl⟩
    | cons f rest ih =>
      intro out fs h
      obtain ⟨d, m, hdec, hg, hf⟩ := h f (List.mem_cons_self f rest)
      have hrest : ∀ g ∈ rest, ∃ d m, decode g.output_dir = some d ∧
          fsGet fs (out ++ "/" ++ d) = some m ∧ m.is_file = true :=
        fun g hgmem => h g (List.mem_cons_of_mem f hgmem)
      obtain ⟨r, hr, hreq, hfail, hfs⟩ := ih out fs hrest
      have hskip := download_file_skips_existing net fs
        (DownloadData.mk f.url d) out m hg hf
      refine ⟨SchedulerResult.mk r.fs (m.len + r.total_size_downloaded)
        (0 + r.requests) ((d, m.len) :: r.ok_files) r.failed_files,
        ?_, ?_, ?_, ?_⟩
      · simp only [download_files_parallel, hdec, hskip, hr]
      · simp only [hreq]
      · exact hfail
      · exact hfs

/-- Witness for C4's corrected statement: the target out/a already
holds a 7-byte regular file, so the single-entry run makes zero
requests against an always-failing network. -/
theorem C4_resume_skip_existing_witness :
    download_file (fun _ => none) [("out/a", Meta.mk true 7)]
        (DownloadData.mk "u" "a") "out" =
      (Except.ok (Meta.mk true 7).len, [("out/a", Meta.mk true 7)], 0)
    ∧ ∃ r, download_files_parallel (fun s => some s) (fun _ => none)
        [DownloadData.mk "u" "a"] "out" [("out/a", Meta.mk true 7)] =
        Except.ok r ∧ r.requests = 0 ∧ r.failed_files = [] ∧
        r.fs = [("out/a", Meta.mk true 7)] :=
  ⟨C4_resume_skip_existing.1 (fun _ => none) [("out/a", Meta.mk true 7)]
      (DownloadData.mk "u" "a") "out" (Meta.mk true 7) (by decide) rfl,
   C4_resume_skip_existing.2 (fun s => some s) (fun _ => none)
      [DownloadData.mk "u" "a"] "out" [("out/a", Meta.mk true 7)]
      (by
        intro f hf
        fin_cases hf
        exact ⟨"a", Meta.mk true 7, rfl, by decide, rfl⟩)⟩

/-- C5 counterexample: the manifest holds one entry whose download
terminally fails (non-success status on "u1") and a second entry whose
relative path "bad" percent-decodes to invalid UTF-8 (decode none);
decode_utf8()? then aborts the whole batch, so download_files_parallel
does not return success even though the claim quantifies over every
manifest. -/
theorem C5_counterexample :
    download_file (fun _ => some (NetResp.mk false none [] false)) []
        (DownloadData.mk "u1" "a") "out" = (Except.error (), [], 1)
    ∧ download_files_parallel (fun s => if s == "bad" then none else some s)
        (fun _ => some (NetResp.mk false none [] false))
        [DownloadData.mk "u1" "a", DownloadData.mk "u2" "bad"] "out" [] =
      Except.error () := by
  exact ⟨rfl, rfl⟩

/-- C5 (corrected): provided every entry's relative path
percent-decodes successfully, the scheduler processes every entry to
completion and returns success for the batch no matter how many
downloads terminally fail; the aggregate counter is exactly the sum of
the sizes reported by successful (or already-resident) downloads, with
failed files contributing nothing; every entry ends in exactly one of
ok_files or failed_files; and no pre-existing filesystem entry (in
particular no partial file) is ever deleted. -/
theorem C5_partial_failure_isolation (decode : String → Option String)
    (net : Net) (out : String) :
    ∀ (files : List DownloadData) (fs : Fs),
      (∀ f ∈ files, (decode f.output_dir).isSome) →
      ∃ r, download_files_parallel decode net files out fs = Except.ok r
        ∧ r.total_size_downloaded = (r.ok_files.map Prod.snd).sum
        ∧ r.ok_files.length + r.failed_files.length = files.length
        ∧ (∀ p m, fsGet fs p = some m → ∃ m', fsGet r.fs p = some m') := by
  intro files
  induction files with
  | nil =>
    intro fs _
    exact ⟨SchedulerResult.mk fs 0 0 [] [], rfl, by simp, by simp,
      fun p m h => ⟨m, h⟩⟩
  | cons f rest ih =>
    intro fs h
    have hd := h f (List.mem_cons_self f rest)
    rcases Option.isSome_iff_exists.mp hd with ⟨d, hdec⟩
    have hrest : ∀ g ∈ rest, (decode g.output_dir).isSome :=
      fun g hg => h g (List.mem_cons_of_mem f hg)
    rcases hdf : download_file net fs (DownloadData.mk f.url d) out
      with ⟨res, fs1, req⟩
    obtain ⟨r, hr, hsum, hlen, hpres⟩ := ih fs1 hrest
    have hstep : ∀ p m, fsGet fs p = some m →
        ∃ m', fsGet r.fs p = some m' := by
      intro p m hp
      have h1 := download_file_preserves net fs (DownloadData.mk f.url d) out p m hp
      rw [hdf] at h1
      simp only at h1
      obtain ⟨m1, hm1⟩ := h1
      exact hpres p m1 hm1
    cases res with
    | ok size =>
      refine ⟨SchedulerResult.mk r.fs (size + r.total_size_downloaded)
        (req + r.requests) ((d, size) :: r.ok_files) r.failed_files,
        ?_, ?_, ?_, ?_⟩
      · simp only [download_files_parallel, hdec, hdf, hr]
      · simp only [List.map_cons, List.sum_cons, hsum]
      · simp only [List.length_cons]
        omega
      · exact hstep
    | error e =>
      refine ⟨SchedulerResult.mk r.fs r.total_size_downloaded
        (req + r.requests) r.ok_files (d :: r.failed_files),
        ?_, ?_, ?_, ?_⟩
      · simp only [download_files_parallel, hdec, hdf, hr]
      · exact hsum
      · simp only [List.length_cons]
        omega
      · exact hstep

/-- Witness for C5's corrected statement: two entries, the first
succeeding with one 3-byte chunk, the second hitting a network error;
the batch returns success, the counter holds only the 3 bytes, and the
pre-existing file out/x survives. -/
theorem C5_partial_failure_isolation_witness :
    ∃ r, download_files_parallel (fun s => some s)
        (fun u => if u == "u1" then some (NetResp.mk true none [3] false)
          else none)
        [DownloadData.mk "u1" "a", DownloadData.mk "u2" "b"] "out"
        [("out/x", Meta.mk true 9)] = Except.ok r
      ∧ r.total_size_downloaded = (r.ok_files.map Prod.snd).sum
      ∧ r.ok_files.length + r.failed_files.length =
          [DownloadData.mk "u1" "a", DownloadData.mk "u2" "b"].length
      ∧ (∀ p m, fsGet [("out/x", Meta.mk true 9)] p = some m →
          ∃ m', fsGet r.fs p = some m') :=
  C5_partial_failure_isolation (fun s => some s)
    (fun u => if u == "u1" then some (NetResp.mk true none [3] false)
      else none)
    "out" [DownloadData.mk "u1" "a", DownloadData.mk "u2" "b"]
    [("out/x", Meta.mk true 9)]
    (by intro f hf; fin_cases hf <;> rfl)

/-- C7 counterexample: with the target absent and the body GET hitting
a network-layer error, download_file reports the failure after exactly
one request — had the GET gone through the section 4.3 retrying
fetcher with the page budget of 15 retries, 16 attempts would have
been made before failing. -/
theorem C7_counterexample :
    download_file (fun _ => none) [] (DownloadData.mk "u" "a") "out" =
      (Except.error (), [], 1)
    ∧ (1 : Nat) ≠ 16 := by
  exact ⟨rfl, by decide⟩

/-- C7 (corrected): when the target file does not already exist, the
download task issues the body GET directly — client.get(..).send()
at src/network.rs line 302, with no retry wrapper — so any
network-layer error, and likewise any non-success status, is reported
as a per-file failure after exactly one request, with no retries. -/
theorem C7_body_get_not_retried (net : Net) (fs : Fs) (f : DownloadData)
    (out : String)
    (habs : fsGet fs (out ++ "/" ++ f.output_dir) = none) :
    (net f.url = none →
      download_file net fs f out = (Except.error (), fs, 1))
    ∧ (∀ resp, net f.url = some resp → resp.status_ok = false →
        download_file net fs f out = (Except.error (), fs, 1)) := by
  constructor
  · intro hn
    rw [download_file]
    simp only [habs]
    rw [downloadFresh, hn]
  · intro resp hn hs
    rw [download_file]
    simp only [habs]
    rw [downloadFresh, hn]
    simp [hs]

/-- Witness for C7's corrected statement at a network error and at a
non-success status. -/
theorem C7_body_get_not_retried_witness :
    download_file (fun _ => none) [] (DownloadData.mk "u" "b") "out" =
      (Except.error (), [], 1)
    ∧ download_file (fun _ => some (NetResp.mk false none [] false)) []
        (DownloadData.mk "u" "b") "out" = (Except.error (), [], 1) :=
  ⟨(C7_body_get_not_retried (fun _ => none) [] (DownloadData.mk "u" "b")
      "out" rfl).1 rfl,
   (C7_body_get_not_retried (fun _ => some (NetResp.mk false none [] false))
      [] (DownloadData.mk "u" "b") "out" rfl).2
     (NetResp.mk false none [] false) rfl rfl⟩
